import Mathlib

/-!
Verification of the evaluation-domain construction (`src/kimchi/src/circuits/domains.rs`)
and the in-circuit Poseidon duplex sponge (`src/kimchi/src/snarky/poseidon.rs`)
of the ZKML_Benchmark repository, as a shallow embedding in Lean 4.

Machine integers (`usize`) are modelled as `Nat` (the claims under study do not
concern integer overflow); fallible Rust functions returning `Option`/`Result`
become `Option`/`Except`; a Rust `panic!`/`assert!` failure is modelled as the
result `none` of an outer `Option` layer.
-/

/-! ### Ceiling base-2 logarithm, kernel-computable

`usize::next_power_of_two` in Rust returns the smallest power of two `≥ n`
(with `0` and `1` both mapping to `1`).  We realise it as `2 ^ clog2 n`, where
`clog2` is a fuel-based (hence kernel-reducible) version of `Nat.clog 2`. -/

def clog2Fuel : Nat → Nat → Nat
  | _, 0 => 0
  | _, 1 => 0
  | 0, _ => 0
  | fuel + 1, n => clog2Fuel fuel ((n + 1) / 2) + 1

def clog2 (n : Nat) : Nat := clog2Fuel n n

theorem clog2Fuel_eq (fuel n : Nat) (h : n ≤ fuel) : clog2Fuel fuel n = Nat.clog 2 n := by
  induction fuel generalizing n with
  | zero =>
    interval_cases n
    simp [clog2Fuel]
  | succ fuel ih =>
    match n with
    | 0 => simp [clog2Fuel]
    | 1 => simp [clog2Fuel]
    | (m + 2) =>
      have h2 : 2 ≤ m + 2 := by omega
      have hdiv : (m + 2 + 1) / 2 ≤ fuel := by omega
      rw [show clog2Fuel (fuel + 1) (m + 2) = clog2Fuel fuel ((m + 2 + 1) / 2) + 1 from rfl,
        ih _ hdiv, Nat.clog_of_two_le (by norm_num) h2]
      norm_num

theorem clog2_eq (n : Nat) : clog2 n = Nat.clog 2 n := clog2Fuel_eq n n le_rfl

/-- Rust `usize::next_power_of_two`: the least power of two `≥ n`. -/
def nextPowerOfTwo (n : Nat) : Nat := 2 ^ clog2 n

theorem le_nextPowerOfTwo (n : Nat) : n ≤ nextPowerOfTwo n := by
  rw [nextPowerOfTwo, clog2_eq]
  exact Nat.le_pow_clog (by norm_num) n

theorem nextPowerOfTwo_le_pow {n j : Nat} (h : n ≤ 2 ^ j) : nextPowerOfTwo n ≤ 2 ^ j := by
  rw [nextPowerOfTwo, clog2_eq]
  exact Nat.pow_le_pow_right (by norm_num) ((Nat.le_pow_iff_clog_le (by norm_num)).1 h)

theorem nextPowerOfTwo_pow (j : Nat) : nextPowerOfTwo (2 ^ j) = 2 ^ j := by
  rw [nextPowerOfTwo, clog2_eq, Nat.clog_pow _ _ (by norm_num)]

theorem clog2_pow (j : Nat) : clog2 (2 ^ j) = j := by
  rw [clog2_eq, Nat.clog_pow _ _ (by norm_num)]

/-! ### Evaluation domains (`src/kimchi/src/circuits/domains.rs`)

The repository's `EvaluationDomains::create` is built on the arkworks
`Radix2EvaluationDomain` (an external dependency of the repository): for a
field with `TWO_ADICITY = A` and a fixed primitive `2^A`-th root of unity `g`,
`Radix2EvaluationDomain::new(m)` rounds `m` up to `size = 2^k`, fails if
`k > A`, and otherwise picks `g ^ 2^(A - k)` as the domain generator.  We
model the field abstractly as a monoid `F` together with the configuration
`FftParams` carrying `A` and `g`. -/

structure FftParams (F : Type) where
  twoAdicity : Nat
  twoAdicRoot : F

/-- arkworks `Radix2EvaluationDomain` (only the fields the repository reads). -/
structure Radix2Domain (F : Type) where
  size : Nat
  group_gen : F
deriving DecidableEq, Repr

/-- arkworks `EvaluationDomain::compute_size_of_domain`. -/
def computeSizeOfDomain {F : Type} (P : FftParams F) (n : Nat) : Option Nat :=
  if clog2 (nextPowerOfTwo n) ≤ P.twoAdicity then some (nextPowerOfTwo n) else none

/-- arkworks `FftField::get_root_of_unity`: for `n = 2^k` with `k ≤ A`, the
generator is the `2^A`-th root squared `A - k` times, i.e. `g ^ 2^(A-k)`. -/
def getRootOfUnity {F : Type} [Monoid F] (P : FftParams F) (n : Nat) : Option F :=
  if n = nextPowerOfTwo n ∧ clog2 (nextPowerOfTwo n) ≤ P.twoAdicity then
    some (P.twoAdicRoot ^ 2 ^ (P.twoAdicity - clog2 (nextPowerOfTwo n)))
  else none

/-- arkworks `Radix2EvaluationDomain::new`. -/
def domainNew {F : Type} [Monoid F] (P : FftParams F) (n : Nat) : Option (Radix2Domain F) :=
  if clog2 (nextPowerOfTwo n) ≤ P.twoAdicity then
    (getRootOfUnity P (nextPowerOfTwo n)).map
      (fun g => { size := nextPowerOfTwo n, group_gen := g })
  else none

deriving instance DecidableEq for Except

/-- `DomainCreationError` from the repository's error module. -/
inductive DomainCreationError where
  | DomainSizeFailed (n : Nat)
  | DomainConstructionFailed (label : String) (size : Nat)
deriving DecidableEq, Repr

structure EvaluationDomains (F : Type) where
  d1 : Radix2Domain F
  d2 : Radix2Domain F
  d4 : Radix2Domain F
  d8 : Radix2Domain F
deriving DecidableEq, Repr

/-- `EvaluationDomains::create`.  The outer `Option` models panic: `none` is
the failure of one of the three `assert_eq!` generator checks; `some (.error e)`
is the `Err(e)` return; `some (.ok d)` is success. -/
def EvaluationDomains.create {F : Type} [Monoid F] [DecidableEq F]
    (P : FftParams F) (n0 : Nat) :
    Option (Except DomainCreationError (EvaluationDomains F)) :=
  match computeSizeOfDomain P n0 with
  | none => some (Except.error (DomainCreationError.DomainSizeFailed n0))
  | some n =>
    match domainNew P n with
    | none => some (Except.error (DomainCreationError.DomainConstructionFailed "d1" n))
    | some d1 =>
      match domainNew P (2 * n) with
      | none => some (Except.error (DomainCreationError.DomainConstructionFailed "d2" (2 * n)))
      | some d2 =>
        match domainNew P (4 * n) with
        | none => some (Except.error (DomainCreationError.DomainConstructionFailed "d4" (4 * n)))
        | some d4 =>
          match domainNew P (8 * n) with
          | none => some (Except.error (DomainCreationError.DomainConstructionFailed "d8" (8 * n)))
          | some d8 =>
            if d2.group_gen ^ 2 = d1.group_gen ∧ d4.group_gen ^ 2 = d2.group_gen ∧
                d8.group_gen ^ 2 = d4.group_gen then
              some (Except.ok { d1 := d1, d2 := d2, d4 := d4, d8 := d8 })
            else none

/-! ### Characterisation of `EvaluationDomains.create` -/

theorem clog2_nextPowerOfTwo (m : Nat) : clog2 (nextPowerOfTwo m) = clog2 m :=
  clog2_pow (clog2 m)

theorem nextPowerOfTwo_idem (m : Nat) : nextPowerOfTwo (nextPowerOfTwo m) = nextPowerOfTwo m :=
  nextPowerOfTwo_pow (clog2 m)

theorem clog2_two_mul_pow (k : Nat) : clog2 (2 * 2 ^ k) = k + 1 := by
  rw [show 2 * 2 ^ k = 2 ^ (k + 1) by ring, clog2_pow]

theorem clog2_four_mul_pow (k : Nat) : clog2 (4 * 2 ^ k) = k + 2 := by
  rw [show 4 * 2 ^ k = 2 ^ (k + 2) by ring, clog2_pow]

theorem clog2_eight_mul_pow (k : Nat) : clog2 (8 * 2 ^ k) = k + 3 := by
  rw [show 8 * 2 ^ k = 2 ^ (k + 3) by ring, clog2_pow]

theorem computeSizeOfDomain_some_iff {F : Type} (P : FftParams F) (n0 n : Nat) :
    computeSizeOfDomain P n0 = some n ↔ clog2 n0 ≤ P.twoAdicity ∧ n = nextPowerOfTwo n0 := by
  unfold computeSizeOfDomain
  rw [clog2_nextPowerOfTwo]
  by_cases h : clog2 n0 ≤ P.twoAdicity
  · simp [h, eq_comm]
  · simp [h]

theorem computeSizeOfDomain_none_iff {F : Type} (P : FftParams F) (n0 : Nat) :
    computeSizeOfDomain P n0 = none ↔ P.twoAdicity < clog2 n0 := by
  unfold computeSizeOfDomain
  rw [clog2_nextPowerOfTwo]
  by_cases h : clog2 n0 ≤ P.twoAdicity
  · simp only [if_pos h]
    constructor
    · intro hc
      exact Option.noConfusion hc
    · omega
  · simp only [if_neg h]
    constructor
    · intro _
      omega
    · intro _
      trivial

theorem domainNew_some {F : Type} [Monoid F] (P : FftParams F) (m : Nat)
    (h : clog2 m ≤ P.twoAdicity) :
    domainNew P m =
      some { size := nextPowerOfTwo m
             group_gen := P.twoAdicRoot ^ 2 ^ (P.twoAdicity - clog2 m) } := by
  unfold domainNew getRootOfUnity
  rw [clog2_nextPowerOfTwo, if_pos h, nextPowerOfTwo_idem, clog2_nextPowerOfTwo,
    if_pos ⟨rfl, h⟩]
  rfl

theorem domainNew_none {F : Type} [Monoid F] (P : FftParams F) (m : Nat)
    (h : P.twoAdicity < clog2 m) : domainNew P m = none := by
  unfold domainNew
  rw [clog2_nextPowerOfTwo, if_neg (by omega)]

theorem domainNew_none_iff {F : Type} [Monoid F] (P : FftParams F) (m : Nat) :
    domainNew P m = none ↔ P.twoAdicity < clog2 m := by
  constructor
  · intro h
    by_contra hc
    rw [domainNew_some P m (by omega)] at h
    exact Option.noConfusion h
  · exact domainNew_none P m

/-- Squaring a generator one level down the two-adic tower. -/
theorem gen_sq_step {F : Type} [Monoid F] (g : F) (a b : Nat) (h : b + 1 ≤ a) :
    (g ^ 2 ^ (a - (b + 1))) ^ 2 = g ^ 2 ^ (a - b) := by
  rw [← pow_mul]
  congr 1
  rw [show 2 ^ (a - (b + 1)) * 2 = 2 ^ (a - (b + 1) + 1) by ring]
  congr 1
  omega

theorem gen_pow_size {F : Type} [Monoid F] (g : F) (a k : Nat) (hk : k ≤ a)
    (hg : g ^ 2 ^ a = 1) : (g ^ 2 ^ (a - k)) ^ 2 ^ k = 1 := by
  rw [← pow_mul, ← pow_add, Nat.sub_add_cancel hk, hg]

/-- The quadruple of domains produced by a successful `create`, with
`k = clog2` of the requested size. -/
def createValue {F : Type} (P : FftParams F) [Monoid F] (k : Nat) : EvaluationDomains F :=
  { d1 := { size := 2 ^ k, group_gen := P.twoAdicRoot ^ 2 ^ (P.twoAdicity - k) },
    d2 := { size := 2 ^ (k + 1), group_gen := P.twoAdicRoot ^ 2 ^ (P.twoAdicity - (k + 1)) },
    d4 := { size := 2 ^ (k + 2), group_gen := P.twoAdicRoot ^ 2 ^ (P.twoAdicity - (k + 2)) },
    d8 := { size := 2 ^ (k + 3), group_gen := P.twoAdicRoot ^ 2 ^ (P.twoAdicity - (k + 3)) } }

theorem create_size_failed {F : Type} [Monoid F] [DecidableEq F] (P : FftParams F) (n0 : Nat)
    (h : P.twoAdicity < clog2 n0) :
    EvaluationDomains.create P n0 =
      some (Except.error (DomainCreationError.DomainSizeFailed n0)) := by
  have hcs : computeSizeOfDomain P n0 = none := (computeSizeOfDomain_none_iff P n0).2 h
  simp [EvaluationDomains.create, hcs]

theorem create_d2_failed {F : Type} [Monoid F] [DecidableEq F] (P : FftParams F) (n0 : Nat)
    (h : P.twoAdicity = clog2 n0) :
    EvaluationDomains.create P n0 =
      some (Except.error
        (DomainCreationError.DomainConstructionFailed "d2" (2 * nextPowerOfTwo n0))) := by
  have hn : nextPowerOfTwo n0 = 2 ^ clog2 n0 := rfl
  have hcs : computeSizeOfDomain P n0 = some (nextPowerOfTwo n0) :=
    (computeSizeOfDomain_some_iff P n0 _).2 ⟨by omega, rfl⟩
  have hd1 := domainNew_some P (nextPowerOfTwo n0)
    (by rw [clog2_nextPowerOfTwo]; omega)
  have hd2 : domainNew P (2 * nextPowerOfTwo n0) = none := by
    apply domainNew_none
    rw [hn, clog2_two_mul_pow]
    omega
  simp [EvaluationDomains.create, hcs, hd1, hd2]

theorem create_d4_failed {F : Type} [Monoid F] [DecidableEq F] (P : FftParams F) (n0 : Nat)
    (h : P.twoAdicity = clog2 n0 + 1) :
    EvaluationDomains.create P n0 =
      some (Except.error
        (DomainCreationError.DomainConstructionFailed "d4" (4 * nextPowerOfTwo n0))) := by
  have hn : nextPowerOfTwo n0 = 2 ^ clog2 n0 := rfl
  have hcs : computeSizeOfDomain P n0 = some (nextPowerOfTwo n0) :=
    (computeSizeOfDomain_some_iff P n0 _).2 ⟨by omega, rfl⟩
  have hd1 := domainNew_some P (nextPowerOfTwo n0)
    (by rw [clog2_nextPowerOfTwo]; omega)
  have hd2 := domainNew_some P (2 * nextPowerOfTwo n0)
    (by rw [hn, clog2_two_mul_pow]; omega)
  have hd4 : domainNew P (4 * nextPowerOfTwo n0) = none := by
    apply domainNew_none
    rw [hn, clog2_four_mul_pow]
    omega
  simp [EvaluationDomains.create, hcs, hd1, hd2, hd4]

theorem create_d8_failed {F : Type} [Monoid F] [DecidableEq F] (P : FftParams F) (n0 : Nat)
    (h : P.twoAdicity = clog2 n0 + 2) :
    EvaluationDomains.create P n0 =
      some (Except.error
        (DomainCreationError.DomainConstructionFailed "d8" (8 * nextPowerOfTwo n0))) := by
  have hn : nextPowerOfTwo n0 = 2 ^ clog2 n0 := rfl
  have hcs : computeSizeOfDomain P n0 = some (nextPowerOfTwo n0) :=
    (computeSizeOfDomain_some_iff P n0 _).2 ⟨by omega, rfl⟩
  have hd1 := domainNew_some P (nextPowerOfTwo n0)
    (by rw [clog2_nextPowerOfTwo]; omega)
  have hd2 := domainNew_some P (2 * nextPowerOfTwo n0)
    (by rw [hn, clog2_two_mul_pow]; omega)
  have hd4 := domainNew_some P (4 * nextPowerOfTwo n0)
    (by rw [hn, clog2_four_mul_pow]; omega)
  have hd8 : domainNew P (8 * nextPowerOfTwo n0) = none := by
    apply domainNew_none
    rw [hn, clog2_eight_mul_pow]
    omega
  simp [EvaluationDomains.create, hcs, hd1, hd2, hd4, hd8]

theorem create_ok {F : Type} [Monoid F] [DecidableEq F] (P : FftParams F) (n0 : Nat)
    (h : clog2 n0 + 3 ≤ P.twoAdicity) :
    EvaluationDomains.create P n0 = some (Except.ok (createValue P (clog2 n0))) := by
  have hn : nextPowerOfTwo n0 = 2 ^ clog2 n0 := rfl
  have hcs : computeSizeOfDomain P n0 = some (nextPowerOfTwo n0) :=
    (computeSizeOfDomain_some_iff P n0 _).2 ⟨by omega, rfl⟩
  have e2 : 2 * nextPowerOfTwo n0 = 2 ^ (clog2 n0 + 1) := by rw [hn]; ring
  have e4 : 4 * nextPowerOfTwo n0 = 2 ^ (clog2 n0 + 2) := by rw [hn]; ring
  have e8 : 8 * nextPowerOfTwo n0 = 2 ^ (clog2 n0 + 3) := by rw [hn]; ring
  have hd1 : domainNew P (nextPowerOfTwo n0) =
      some { size := 2 ^ clog2 n0
             group_gen := P.twoAdicRoot ^ 2 ^ (P.twoAdicity - clog2 n0) } := by
    rw [domainNew_some P _ (by rw [clog2_nextPowerOfTwo]; omega)]
    rw [clog2_nextPowerOfTwo, nextPowerOfTwo_idem]
    rfl
  have hd2 : domainNew P (2 * nextPowerOfTwo n0) =
      some { size := 2 ^ (clog2 n0 + 1)
             group_gen := P.twoAdicRoot ^ 2 ^ (P.twoAdicity - (clog2 n0 + 1)) } := by
    rw [domainNew_some P _ (by rw [e2, clog2_pow]; omega)]
    rw [e2, clog2_pow, nextPowerOfTwo_pow]
  have hd4 : domainNew P (4 * nextPowerOfTwo n0) =
      some { size := 2 ^ (clog2 n0 + 2)
             group_gen := P.twoAdicRoot ^ 2 ^ (P.twoAdicity - (clog2 n0 + 2)) } := by
    rw [domainNew_some P _ (by rw [e4, clog2_pow]; omega)]
    rw [e4, clog2_pow, nextPowerOfTwo_pow]
  have hd8 : domainNew P (8 * nextPowerOfTwo n0) =
      some { size := 2 ^ (clog2 n0 + 3)
             group_gen := P.twoAdicRoot ^ 2 ^ (P.twoAdicity - (clog2 n0 + 3)) } := by
    rw [domainNew_some P _ (by rw [e8, clog2_pow]; omega)]
    rw [e8, clog2_pow, nextPowerOfTwo_pow]
  have hsq2 := gen_sq_step P.twoAdicRoot P.twoAdicity (clog2 n0) (by omega)
  have hsq4 := gen_sq_step P.twoAdicRoot P.twoAdicity (clog2 n0 + 1) (by omega)
  have hsq8 := gen_sq_step P.twoAdicRoot P.twoAdicity (clog2 n0 + 2) (by omega)
  simp only [EvaluationDomains.create, hcs, hd1, hd2, hd4, hd8]
  rw [if_pos ⟨hsq2, hsq4, hsq8⟩]
  rfl

/-- C2: for every `n` on which `EvaluationDomains.create` returns `Ok` with
domains `{d1, d2, d4, d8}`, the generator-squaring chain holds:
`d2.generator^2 = d1.generator`, `d4.generator^2 = d2.generator`,
`d8.generator^2 = d4.generator`, and each `dk.generator ^ dk.size = 1`.
The last group of equations uses the standing assumption that the configured
two-adic root really is a `2^twoAdicity`-th root of unity, which arkworks
guarantees for its field parameters. -/
theorem C2_generator_chain {F : Type} [Monoid F] [DecidableEq F] (P : FftParams F)
    (n0 : Nat) (d : EvaluationDomains F)
    (hroot : P.twoAdicRoot ^ 2 ^ P.twoAdicity = 1)
    (h : EvaluationDomains.create P n0 = some (Except.ok d)) :
    d.d2.group_gen ^ 2 = d.d1.group_gen ∧
    d.d4.group_gen ^ 2 = d.d2.group_gen ∧
    d.d8.group_gen ^ 2 = d.d4.group_gen ∧
    d.d1.group_gen ^ d.d1.size = 1 ∧ d.d2.group_gen ^ d.d2.size = 1 ∧
    d.d4.group_gen ^ d.d4.size = 1 ∧ d.d8.group_gen ^ d.d8.size = 1 := by
  rcases Nat.lt_or_ge P.twoAdicity (clog2 n0 + 3) with hA | hA
  · rcases Nat.lt_or_ge P.twoAdicity (clog2 n0) with h1 | h1
    · rw [create_size_failed P n0 h1] at h
      simp at h
    · have h123 : P.twoAdicity = clog2 n0 ∨ P.twoAdicity = clog2 n0 + 1 ∨
          P.twoAdicity = clog2 n0 + 2 := by omega
      rcases h123 with h2 | h2 | h2
      · rw [create_d2_failed P n0 h2] at h
        simp at h
      · rw [create_d4_failed P n0 h2] at h
        simp at h
      · rw [create_d8_failed P n0 h2] at h
        simp at h
  · rw [create_ok P n0 hA] at h
    simp only [Option.some_inj, Except.ok.injEq] at h
    subst h
    refine ⟨gen_sq_step _ _ _ (by omega), gen_sq_step _ _ _ (by omega),
      gen_sq_step _ _ _ (by omega), ?_, ?_, ?_, ?_⟩
    · exact gen_pow_size _ _ _ (by omega) hroot
    · exact gen_pow_size _ _ _ (by omega) hroot
    · exact gen_pow_size _ _ _ (by omega) hroot
    · exact gen_pow_size _ _ _ (by omega) hroot

/-- C4: for every `n` on which `EvaluationDomains.create` returns `Ok`,
`d1.size` is the smallest admissible (power-of-two, two-adicity-bounded)
domain size `≥ n`, and `d2.size = 2 * d1.size`, `d4.size = 4 * d1.size`,
`d8.size = 8 * d1.size`. -/
theorem C4_domain_sizes {F : Type} [Monoid F] [DecidableEq F] (P : FftParams F)
    (n0 : Nat) (d : EvaluationDomains F)
    (h : EvaluationDomains.create P n0 = some (Except.ok d)) :
    (∃ j, j ≤ P.twoAdicity ∧ d.d1.size = 2 ^ j) ∧
    n0 ≤ d.d1.size ∧ (∀ j, n0 ≤ 2 ^ j → d.d1.size ≤ 2 ^ j) ∧
    d.d2.size = 2 * d.d1.size ∧ d.d4.size = 4 * d.d1.size ∧ d.d8.size = 8 * d.d1.size := by
  rcases Nat.lt_or_ge P.twoAdicity (clog2 n0 + 3) with hA | hA
  · rcases Nat.lt_or_ge P.twoAdicity (clog2 n0) with h1 | h1
    · rw [create_size_failed P n0 h1] at h
      simp at h
    · have h123 : P.twoAdicity = clog2 n0 ∨ P.twoAdicity = clog2 n0 + 1 ∨
          P.twoAdicity = clog2 n0 + 2 := by omega
      rcases h123 with h2 | h2 | h2
      · rw [create_d2_failed P n0 h2] at h
        simp at h
      · rw [create_d4_failed P n0 h2] at h
        simp at h
      · rw [create_d8_failed P n0 h2] at h
        simp at h
  · rw [create_ok P n0 hA] at h
    simp only [Option.some_inj, Except.ok.injEq] at h
    subst h
    refine ⟨⟨clog2 n0, by omega, rfl⟩, le_nextPowerOfTwo n0, ?_,
      by simp only [createValue]; ring, by simp only [createValue]; ring,
      by simp only [createValue]; ring⟩
    intro j hj
    exact nextPowerOfTwo_le_pow hj

/-- C5: `EvaluationDomains.create n` fails with `DomainSizeFailed n` when no
admissible domain size `≥ n` exists; fails with `DomainConstructionFailed`
carrying the label and attempted size of the first of `d2`, `d4`, `d8` whose
root of unity does not exist (`d1` itself can never fail once the size
computation succeeded, and each larger domain is checked independently); it
never panics (the defensive `assert_eq!` chain always holds), and on success
the domain sizes are exactly `n, 2n, 4n, 8n` for the computed `n`. -/
theorem C5_error_handling {F : Type} [Monoid F] [DecidableEq F] (P : FftParams F) (n0 : Nat) :
    (computeSizeOfDomain P n0 = none →
      EvaluationDomains.create P n0 =
        some (Except.error (DomainCreationError.DomainSizeFailed n0))) ∧
    (∀ n, computeSizeOfDomain P n0 = some n →
      domainNew P n ≠ none ∧
      (domainNew P (2 * n) = none →
        EvaluationDomains.create P n0 =
          some (Except.error (DomainCreationError.DomainConstructionFailed "d2" (2 * n)))) ∧
      (domainNew P (2 * n) ≠ none → domainNew P (4 * n) = none →
        EvaluationDomains.create P n0 =
          some (Except.error (DomainCreationError.DomainConstructionFailed "d4" (4 * n)))) ∧
      (domainNew P (4 * n) ≠ none → domainNew P (8 * n) = none →
        EvaluationDomains.create P n0 =
          some (Except.error (DomainCreationError.DomainConstructionFailed "d8" (8 * n)))) ∧
      (∀ d, EvaluationDomains.create P n0 = some (Except.ok d) →
        d.d1.size = n ∧ d.d2.size = 2 * n ∧ d.d4.size = 4 * n ∧ d.d8.size = 8 * n)) ∧
    EvaluationDomains.create P n0 ≠ none := by
  have hn : nextPowerOfTwo n0 = 2 ^ clog2 n0 := rfl
  refine ⟨?_, ?_, ?_⟩
  · intro hc
    exact create_size_failed P n0 ((computeSizeOfDomain_none_iff P n0).1 hc)
  · intro n hc
    obtain ⟨hk, hne⟩ := (computeSizeOfDomain_some_iff P n0 n).1 hc
    subst hne
    have hcl1 : clog2 (nextPowerOfTwo n0) = clog2 n0 := clog2_nextPowerOfTwo n0
    have hcl2 : clog2 (2 * nextPowerOfTwo n0) = clog2 n0 + 1 := by
      rw [hn]
      exact clog2_two_mul_pow _
    have hcl4 : clog2 (4 * nextPowerOfTwo n0) = clog2 n0 + 2 := by
      rw [hn]
      exact clog2_four_mul_pow _
    have hcl8 : clog2 (8 * nextPowerOfTwo n0) = clog2 n0 + 3 := by
      rw [hn]
      exact clog2_eight_mul_pow _
    refine ⟨?_, ?_, ?_, ?_, ?_⟩
    · rw [domainNew_some P _ (by omega)]
      simp
    · intro h2
      rw [domainNew_none_iff, hcl2] at h2
      exact create_d2_failed P n0 (by omega)
    · intro h2 h4
      have h2' : clog2 n0 + 1 ≤ P.twoAdicity := by
        by_contra hc
        exact h2 (domainNew_none P _ (by rw [hcl2]; omega))
      rw [domainNew_none_iff, hcl4] at h4
      exact create_d4_failed P n0 (by omega)
    · intro h4 h8
      have h4' : clog2 n0 + 2 ≤ P.twoAdicity := by
        by_contra hc
        exact h4 (domainNew_none P _ (by rw [hcl4]; omega))
      rw [domainNew_none_iff, hcl8] at h8
      exact create_d8_failed P n0 (by omega)
    · intro d h
      rcases Nat.lt_or_ge P.twoAdicity (clog2 n0 + 3) with hA | hA
      · have h123 : P.twoAdicity = clog2 n0 ∨ P.twoAdicity = clog2 n0 + 1 ∨
            P.twoAdicity = clog2 n0 + 2 := by omega
        rcases h123 with h2 | h2 | h2
        · rw [create_d2_failed P n0 h2] at h
          simp at h
        · rw [create_d4_failed P n0 h2] at h
          simp at h
        · rw [create_d8_failed P n0 h2] at h
          simp at h
      · rw [create_ok P n0 hA] at h
        simp only [Option.some_inj, Except.ok.injEq] at h
        subst h
        refine ⟨rfl, ?_, ?_, ?_⟩ <;> simp only [createValue, hn] <;> ring
  · rcases Nat.lt_or_ge P.twoAdicity (clog2 n0) with h1 | h1
    · rw [create_size_failed P n0 h1]
      simp
    · rcases Nat.lt_or_ge P.twoAdicity (clog2 n0 + 3) with hA | hA
      · have h123 : P.twoAdicity = clog2 n0 ∨ P.twoAdicity = clog2 n0 + 1 ∨
            P.twoAdicity = clog2 n0 + 2 := by omega
        rcases h123 with h2 | h2 | h2
        · rw [create_d2_failed P n0 h2]
          simp
        · rw [create_d4_failed P n0 h2]
          simp
        · rw [create_d8_failed P n0 h2]
          simp
      · rw [create_ok P n0 hA]
        simp

/-! ### A concrete field instance: `ZMod 17`, two-adicity 4, root 3

`3` generates the multiplicative group of `ZMod 17` (order `16 = 2^4`), so it
is a primitive `2^4`-th root of unity: a miniature stand-in for the pasta
fields' two-adic structure, used to exercise the theorems on concrete data. -/

def P17 : FftParams (ZMod 17) := { twoAdicity := 4, twoAdicRoot := 3 }

/-- The value `EvaluationDomains.create P17 2` actually produces. -/
def dVal17 : EvaluationDomains (ZMod 17) :=
  { d1 := { size := 2, group_gen := 16 }
    d2 := { size := 4, group_gen := 13 }
    d4 := { size := 8, group_gen := 9 }
    d8 := { size := 16, group_gen := 3 } }

/-- Witness for C2: the generator chain on the concrete `ZMod 17` instance. -/
theorem C2_generator_chain_witness :
    dVal17.d2.group_gen ^ 2 = dVal17.d1.group_gen ∧
    dVal17.d4.group_gen ^ 2 = dVal17.d2.group_gen ∧
    dVal17.d8.group_gen ^ 2 = dVal17.d4.group_gen ∧
    dVal17.d1.group_gen ^ dVal17.d1.size = 1 ∧ dVal17.d2.group_gen ^ dVal17.d2.size = 1 ∧
    dVal17.d4.group_gen ^ dVal17.d4.size = 1 ∧ dVal17.d8.group_gen ^ dVal17.d8.size = 1 :=
  C2_generator_chain P17 2 dVal17 (by decide) (by decide)

/-- Witness for C4 on the concrete `ZMod 17` instance. -/
theorem C4_domain_sizes_witness :
    (∃ j, j ≤ P17.twoAdicity ∧ dVal17.d1.size = 2 ^ j) ∧
    2 ≤ dVal17.d1.size ∧ (∀ j, 2 ≤ 2 ^ j → dVal17.d1.size ≤ 2 ^ j) ∧
    dVal17.d2.size = 2 * dVal17.d1.size ∧ dVal17.d4.size = 4 * dVal17.d1.size ∧
    dVal17.d8.size = 8 * dVal17.d1.size :=
  C4_domain_sizes P17 2 dVal17 (by decide)

/-- Witness for C5: each failure mode observed at a concrete requested size
over `ZMod 17` (two-adicity 4): `n = 32` has no admissible size, `n = 16`
fails on `d2`, `n = 8` on `d4`, `n = 4` on `d8`; `n = 2` succeeds with
sizes `2, 4, 8, 16` and no panic. -/
theorem C5_error_handling_witness :
    EvaluationDomains.create P17 32 =
      some (Except.error (DomainCreationError.DomainSizeFailed 32)) ∧
    EvaluationDomains.create P17 16 =
      some (Except.error (DomainCreationError.DomainConstructionFailed "d2" 32)) ∧
    EvaluationDomains.create P17 8 =
      some (Except.error (DomainCreationError.DomainConstructionFailed "d4" 32)) ∧
    EvaluationDomains.create P17 4 =
      some (Except.error (DomainCreationError.DomainConstructionFailed "d8" 32)) ∧
    EvaluationDomains.create P17 2 ≠ none ∧
    dVal17.d1.size = 2 ∧ dVal17.d2.size = 4 ∧ dVal17.d4.size = 8 ∧ dVal17.d8.size = 16 :=
  ⟨(C5_error_handling P17 32).1 (by decide),
   ((C5_error_handling P17 16).2.1 16 (by decide)).2.1 (by decide),
   ((C5_error_handling P17 8).2.1 8 (by decide)).2.2.1 (by decide) (by decide),
   ((C5_error_handling P17 4).2.1 4 (by decide)).2.2.2.1 (by decide) (by decide),
   (C5_error_handling P17 2).2.2,
   ((C5_error_handling P17 2).2.1 2 (by decide)).2.2.2.2 dVal17 (by decide)⟩

/-! ### In-circuit Poseidon (`src/kimchi/src/snarky/poseidon.rs`)

Circuit variables are modelled symbolically: `FieldVar.zero` is
`FieldVar::zero()`, `add` is the circuit `+`, and `permL`/`permR` are the two
fresh variables returned by one invocation of the Poseidon gate on a pair. -/

inductive FieldVar where
  | zero : FieldVar
  | input : Nat → FieldVar
  | add : FieldVar → FieldVar → FieldVar
  | permL : FieldVar → FieldVar → FieldVar
  | permR : FieldVar → FieldVar → FieldVar
deriving DecidableEq, Repr

/-- One sponge state: `[FieldVar; SPONGE_WIDTH]` with `SPONGE_WIDTH = 3`. -/
structure PState where
  w0 : FieldVar
  w1 : FieldVar
  w2 : FieldVar
deriving DecidableEq, Repr

/-- The payload of the `KimchiConstraint::Poseidon2` constraint: the reordered
round states (flattened, as in the Rust `Vec` of states) plus the terminal
state. -/
structure PoseidonInput where
  states : List PState
  last : PState
deriving DecidableEq, Repr

/-- Modelled from the spec: `ROUNDS_PER_ROW` lives in
`crate::circuits::polynomials::poseidon`, which is not under `src/`; the spec
fixes the row width at 5 states, matching the five-fold destructuring in
`poseidon`'s chunk loop. -/
def ROUNDS_PER_ROW : Nat := 5

/-- The chain of round states: `roundIter f init i` is the state after `i`
rounds, where round `i` maps state `s` to `f i s` (the source's
`successors` iterator with `round(prev, i)`). -/
def roundIter (f : Nat → PState → PState) (init : PState) : Nat → PState
  | 0 => init
  | i + 1 => f i (roundIter f init i)

/-- The chunk-of-5 reordering `(r0, r1, r2, r3, r4) ↦ (r0, r4, r1, r2, r3)`
from `poseidon`'s `flat_map`.  A trailing chunk shorter than 5 makes the
source panic on `it.next().unwrap()`; that is the `none` case. -/
def reorderChunks {σ : Type} : List σ → Option (List σ)
  | [] => some []
  | r0 :: r1 :: r2 :: r3 :: r4 :: rest =>
    (reorderChunks rest).map (fun t => r0 :: r4 :: r1 :: r2 :: r3 :: t)
  | _ => none

/-- The `poseidon` function (gate emission): builds `[l, r, zero]`, iterates
`roundsPerHash` rounds (the value of `ROUNDS_PER_HASH` itself lives outside
`src/`, so it is a parameter), reorders the first `roundsPerHash` states in
chunks of `ROUNDS_PER_ROW`, emits one `PoseidonInput` constraint carrying them
plus the terminal state, and returns `(last[0], last[1])`. -/
def poseidonGate (roundsPerHash : Nat) (f : Nat → PState → PState)
    (preimage : FieldVar × FieldVar) :
    Option (PoseidonInput × (FieldVar × FieldVar)) :=
  let initSt : PState := { w0 := preimage.1, w1 := preimage.2, w2 := FieldVar.zero }
  let states := (List.range roundsPerHash).map (roundIter f initSt)
  let last := roundIter f initSt roundsPerHash
  (reorderChunks states).map
    (fun reordered => ({ states := reordered, last := last }, (last.w0, last.w1)))

/-- The chain of round states of one hash on preimage `(a, b)`:
`pstate10 f a b i` is the state after `i` rounds from `[a, b, zero]`. -/
def pstate10 (f : Nat → PState → PState) (a b : FieldVar) (i : Nat) : PState :=
  roundIter f { w0 := a, w1 := b, w2 := FieldVar.zero } i

/-- C3: the `ROUNDS_PER_HASH` intermediate states are grouped into consecutive
chunks of `ROUNDS_PER_ROW = 5`, each chunk `(r0, r1, r2, r3, r4)` is emitted as
`(r0, r4, r1, r2, r3)`, and the final post-permutation state is not part of
any chunk but carried separately as the terminal state of the single emitted
constraint; in particular for `ROUNDS_PER_HASH = 10` the emitted rows are
`(r0, r4, r1, r2, r3)` then `(r5, r9, r6, r7, r8)` with `r10` as terminal
state, and the returned hash is `(r10[0], r10[1])`. -/
theorem C3_row_reordering (f : Nat → PState → PState) (a b : FieldVar) :
    (∀ (r0 r1 r2 r3 r4 : PState) (rest : List PState),
      reorderChunks (r0 :: r1 :: r2 :: r3 :: r4 :: rest) =
        (reorderChunks rest).map (fun t => r0 :: r4 :: r1 :: r2 :: r3 :: t)) ∧
    ROUNDS_PER_ROW = 5 ∧
    poseidonGate 10 f (a, b) =
      some ({ states := [pstate10 f a b 0, pstate10 f a b 4, pstate10 f a b 1,
                         pstate10 f a b 2, pstate10 f a b 3, pstate10 f a b 5,
                         pstate10 f a b 9, pstate10 f a b 6, pstate10 f a b 7,
                         pstate10 f a b 8]
              last := pstate10 f a b 10 },
            ((pstate10 f a b 10).w0, (pstate10 f a b 10).w1)) :=
  ⟨fun _ _ _ _ _ _ => rfl, rfl, rfl⟩

/-! ### Duplex sponge (`DuplexState` in `src/kimchi/src/snarky/poseidon.rs`)

`RunState` is abstracted to its observable effect here: the number of Poseidon
gates emitted and the pairs they were invoked on; `sysPoseidon` models
`RunState::poseidon`, which allocates the two fresh output variables
symbolically (`permL`/`permR`). -/

structure RunState where
  permCount : Nat
  calls : List (FieldVar × FieldVar)
deriving DecidableEq, Repr

def sysInit : RunState := { permCount := 0, calls := [] }

def sysPoseidon (sys : RunState) (p : FieldVar × FieldVar) :
    RunState × FieldVar × FieldVar :=
  ({ permCount := sys.permCount + 1, calls := sys.calls ++ [p] },
   FieldVar.permL p.1 p.2, FieldVar.permR p.1 p.2)

/-- `const RATE_SIZE: usize = 2`. -/
def RATE_SIZE : Nat := 2

structure DuplexState where
  rev_queue : List FieldVar
  absorbing : Bool
  squeezed : Option FieldVar
  state0 : FieldVar
  state1 : FieldVar
  state2 : FieldVar
deriving DecidableEq, Repr

/-- `DuplexState::new` / `Default::default`. -/
def DuplexState.new : DuplexState :=
  { rev_queue := [], absorbing := true, squeezed := none,
    state0 := FieldVar.zero, state1 := FieldVar.zero, state2 := FieldVar.zero }

/-- Rust `Vec::pop`: removes and returns the last element. -/
def vecPop {α : Type} (l : List α) : Option (α × List α) :=
  match l.reverse with
  | [] => none
  | x :: rest => some (x, rest.reverse)

/-- `DuplexState::permute`: reads `state[0]`, `state[1]` and invokes the
Poseidon gate on them; note it does not write anything back into the state. -/
def DuplexState.permute (d : DuplexState) (sys : RunState) :
    RunState × FieldVar × FieldVar :=
  sysPoseidon sys (d.state0, d.state1)

/-- The body of `DuplexState::absorb`'s `for input in inputs` loop for one
input.  `none` models a panic of the `unwrap`s on the queue pops. -/
def DuplexState.absorbStep (d : DuplexState) (sys : RunState) (input : FieldVar) :
    Option (RunState × DuplexState) :=
  if d.rev_queue.length = RATE_SIZE then
    match vecPop d.rev_queue with
    | none => none
    | some (left, q1) =>
      match vecPop q1 with
      | none => none
      | some (right, q2) =>
        let d1 : DuplexState :=
          { d with state0 := FieldVar.add d.state0 left
                   state1 := FieldVar.add d.state1 right
                   rev_queue := q2 }
        some ((d1.permute sys).1, { d1 with rev_queue := input :: d1.rev_queue })
  else
    some (sys, { d with rev_queue := input :: d.rev_queue })

/-- `DuplexState::absorb`.  `none` models the failure of
`assert!(self.rev_queue.is_empty())` on the squeezing-to-absorbing switch
(or of an `unwrap` inside the loop). -/
def DuplexState.absorb (d : DuplexState) (sys : RunState) (inputs : List FieldVar) :
    Option (RunState × DuplexState) :=
  let start : Option (RunState × DuplexState) :=
    if d.absorbing then some (sys, d)
    else if d.rev_queue = [] then some (sys, { d with squeezed := none, absorbing := true })
    else none
  inputs.foldl (fun acc input => acc.bind (fun p => p.2.absorbStep p.1 input)) start

/-- `DuplexState::squeeze`.  `none` models the failure of
`assert!(self.squeezed.is_none())` on the absorbing-to-squeezing switch. -/
def DuplexState.squeeze (d : DuplexState) (sys : RunState) :
    Option (RunState × DuplexState × FieldVar) :=
  let drained : Option DuplexState :=
    if d.absorbing then
      if d.squeezed.isSome then none
      else
        let dA : DuplexState :=
          match vecPop d.rev_queue with
          | some (left, q) => { d with state0 := FieldVar.add d.state0 left, rev_queue := q }
          | none => d
        let dB : DuplexState :=
          match vecPop dA.rev_queue with
          | some (right, q) => { dA with state1 := FieldVar.add dA.state1 right, rev_queue := q }
          | none => dA
        some { dB with absorbing := false }
    else some d
  match drained with
  | none => none
  | some d1 =>
    match d1.squeezed with
    | some sq => some (sys, { d1 with squeezed := none }, sq)
    | none =>
      match d1.permute sys with
      | (sys1, left, right) => some (sys1, { d1 with squeezed := some right }, left)

/-- An arbitrary caller-driven interaction with the sponge. -/
inductive SpongeOp where
  | absorbOp (inputs : List FieldVar)
  | squeezeOp
deriving DecidableEq, Repr

def runOp (sys : RunState) (d : DuplexState) : SpongeOp → Option (RunState × DuplexState)
  | SpongeOp.absorbOp inputs => d.absorb sys inputs
  | SpongeOp.squeezeOp => (d.squeeze sys).map (fun r => (r.1, r.2.1))

def runOps (sys : RunState) (d : DuplexState) : List SpongeOp → Option (RunState × DuplexState)
  | [] => some (sys, d)
  | op :: rest =>
    match runOp sys d op with
    | none => none
    | some (sys1, d1) => runOps sys1 d1 rest

/-- The sponge's mode/queue/cache invariant. -/
def DuplexInv (d : DuplexState) : Prop :=
  d.rev_queue.length ≤ RATE_SIZE ∧
  (d.absorbing = false → d.rev_queue = []) ∧
  (d.absorbing = true → d.squeezed = none)

/-! ### Sponge helper lemmas -/

theorem vecPop_nil {α : Type} : vecPop ([] : List α) = none := rfl

theorem vecPop_one {α : Type} (x : α) : vecPop [x] = some (x, []) := rfl

theorem vecPop_two {α : Type} (x y : α) : vecPop [x, y] = some (y, [x]) := rfl

/-- `absorbStep` always succeeds, and permutes exactly when the queue already
holds `RATE_SIZE` elements. -/
theorem absorbStep_permCount (d : DuplexState) (sys : RunState) (input : FieldVar) :
    (d.absorbStep sys input).map (fun p => p.1.permCount) =
      some (if d.rev_queue.length = RATE_SIZE then sys.permCount + 1 else sys.permCount) := by
  rcases hq : d.rev_queue with _ | ⟨x, _ | ⟨y, _ | ⟨z, tail⟩⟩⟩
  · simp [DuplexState.absorbStep, hq, RATE_SIZE]
  · simp [DuplexState.absorbStep, hq, RATE_SIZE]
  · simp [DuplexState.absorbStep, hq, RATE_SIZE, vecPop_two, vecPop_one,
      DuplexState.permute, sysPoseidon]
  · have hne : d.rev_queue.length ≠ RATE_SIZE := by
      simp [hq, RATE_SIZE]
    rw [DuplexState.absorbStep, if_neg hne, hq]
    simp [hq] at hne
    simp [hne]

/-- `absorbStep` preserves the mode, the cached output, the capacity element,
and the queue bound. -/
theorem absorbStep_spec (d : DuplexState) (sys : RunState) (input : FieldVar)
    (hlen : d.rev_queue.length ≤ RATE_SIZE) :
    ∃ sys1 d1, d.absorbStep sys input = some (sys1, d1) ∧
      d1.absorbing = d.absorbing ∧ d1.squeezed = d.squeezed ∧
      d1.state2 = d.state2 ∧ d1.rev_queue.length ≤ RATE_SIZE := by
  rcases hq : d.rev_queue with _ | ⟨x, _ | ⟨y, _ | ⟨z, tail⟩⟩⟩
  · refine ⟨sys, { d with rev_queue := [input] }, ?_, rfl, rfl, rfl, by simp [RATE_SIZE]⟩
    simp [DuplexState.absorbStep, hq, RATE_SIZE]
  · refine ⟨sys, { d with rev_queue := [input, x] }, ?_, rfl, rfl, rfl, by simp [RATE_SIZE]⟩
    simp [DuplexState.absorbStep, hq, RATE_SIZE]
  · refine ⟨{ permCount := sys.permCount + 1
              calls := sys.calls ++ [(FieldVar.add d.state0 y, FieldVar.add d.state1 x)] },
      { d with state0 := FieldVar.add d.state0 y
               state1 := FieldVar.add d.state1 x
               rev_queue := [input] }, ?_, rfl, rfl, rfl, by simp [RATE_SIZE]⟩
    simp [DuplexState.absorbStep, hq, RATE_SIZE, vecPop_two, vecPop_one,
      DuplexState.permute, sysPoseidon]
  · exfalso
    rw [hq] at hlen
    simp [RATE_SIZE] at hlen

/-- The absorb loop preserves mode, cache, capacity and queue bound, and never
fails, from any in-bounds starting point. -/
theorem absorb_fold_spec (inputs : List FieldVar) :
    ∀ (d : DuplexState) (sys : RunState), d.rev_queue.length ≤ RATE_SIZE →
    ∃ sys1 d1,
      inputs.foldl (fun acc input => acc.bind (fun p => p.2.absorbStep p.1 input))
          (some (sys, d)) = some (sys1, d1) ∧
      d1.absorbing = d.absorbing ∧ d1.squeezed = d.squeezed ∧
      d1.state2 = d.state2 ∧ d1.rev_queue.length ≤ RATE_SIZE := by
  induction inputs with
  | nil => exact fun d sys hlen => ⟨sys, d, rfl, rfl, rfl, rfl, hlen⟩
  | cons a rest ih =>
    intro d sys hlen
    obtain ⟨sys1, d1, hstep, hab, hsq, hst2, hlen1⟩ := absorbStep_spec d sys a hlen
    obtain ⟨sys2, d2, hfold, hab2, hsq2, hst2b, hlen2⟩ := ih d1 sys1 hlen1
    refine ⟨sys2, d2, ?_, by rw [hab2, hab], by rw [hsq2, hsq], by rw [hst2b, hst2], hlen2⟩
    rw [List.foldl_cons]
    have hred : (some (sys, d)).bind (fun p => p.2.absorbStep p.1 a) = some (sys1, d1) := hstep
    rw [hred]
    exact hfold

/-- `DuplexState::absorb` under the sponge invariant: never panics, leaves the
sponge absorbing with empty cache, preserves the capacity element and the
queue bound. -/
theorem absorb_spec (d : DuplexState) (sys : RunState) (inputs : List FieldVar)
    (hInv : DuplexInv d) :
    ∃ sys1 d1, d.absorb sys inputs = some (sys1, d1) ∧
      d1.absorbing = true ∧ d1.squeezed = none ∧ d1.state2 = d.state2 ∧
      d1.rev_queue.length ≤ RATE_SIZE := by
  obtain ⟨hlen, hqe, hsqn⟩ := hInv
  unfold DuplexState.absorb
  cases hab : d.absorbing with
  | true =>
    obtain ⟨sys1, d1, hfold, h1, h2, h3, h4⟩ := absorb_fold_spec inputs d sys hlen
    refine ⟨sys1, d1, ?_, by rw [h1, hab], by rw [h2, hsqn hab], h3, h4⟩
    simpa [hab] using hfold
  | false =>
    have hq : d.rev_queue = [] := hqe hab
    obtain ⟨sys1, d1, hfold, h1, h2, h3, h4⟩ :=
      absorb_fold_spec inputs { d with squeezed := none, absorbing := true } sys
        (by simp [hq, RATE_SIZE])
    refine ⟨sys1, d1, ?_, by rw [h1], by rw [h2], h3, h4⟩
    simpa [hab, hq] using hfold

/-- `DuplexState::squeeze` under the sponge invariant: never panics, leaves
the sponge squeezing with an empty queue, preserves the capacity element. -/
theorem squeeze_spec (d : DuplexState) (sys : RunState) (hInv : DuplexInv d) :
    ∃ sys1 d1 out, d.squeeze sys = some (sys1, d1, out) ∧
      d1.absorbing = false ∧ d1.rev_queue = [] ∧ d1.state2 = d.state2 := by
  obtain ⟨hlen, hqe, hsqn⟩ := hInv
  cases hab : d.absorbing with
  | false =>
    have hq : d.rev_queue = [] := hqe hab
    cases hsq : d.squeezed with
    | some sq =>
      exact ⟨sys, { d with squeezed := none }, sq,
        by simp [DuplexState.squeeze, hab, hsq], hab, hq, rfl⟩
    | none =>
      exact ⟨{ permCount := sys.permCount + 1, calls := sys.calls ++ [(d.state0, d.state1)] },
        { d with squeezed := some (FieldVar.permR d.state0 d.state1) },
        FieldVar.permL d.state0 d.state1,
        by simp [DuplexState.squeeze, hab, hsq, DuplexState.permute, sysPoseidon],
        hab, hq, rfl⟩
  | true =>
    have hsq : d.squeezed = none := hsqn hab
    rcases hq : d.rev_queue with _ | ⟨x, _ | ⟨y, _ | ⟨z, tail⟩⟩⟩
    · exact ⟨{ permCount := sys.permCount + 1, calls := sys.calls ++ [(d.state0, d.state1)] },
        { d with absorbing := false
                 squeezed := some (FieldVar.permR d.state0 d.state1) },
        FieldVar.permL d.state0 d.state1,
        by simp [DuplexState.squeeze, hab, hsq, hq, vecPop_nil,
          DuplexState.permute, sysPoseidon], rfl, hq, rfl⟩
    · exact ⟨{ permCount := sys.permCount + 1
               calls := sys.calls ++ [(FieldVar.add d.state0 x, d.state1)] },
        { d with absorbing := false
                 rev_queue := []
                 state0 := FieldVar.add d.state0 x
                 squeezed := some (FieldVar.permR (FieldVar.add d.state0 x) d.state1) },
        FieldVar.permL (FieldVar.add d.state0 x) d.state1,
        by simp [DuplexState.squeeze, hab, hsq, hq, vecPop_one, vecPop_nil,
          DuplexState.permute, sysPoseidon], rfl, rfl, rfl⟩
    · exact ⟨{ permCount := sys.permCount + 1
               calls := sys.calls ++ [(FieldVar.add d.state0 y, FieldVar.add d.state1 x)] },
        { d with absorbing := false
                 rev_queue := []
                 state0 := FieldVar.add d.state0 y
                 state1 := FieldVar.add d.state1 x
                 squeezed := some (FieldVar.permR (FieldVar.add d.state0 y)
                   (FieldVar.add d.state1 x)) },
        FieldVar.permL (FieldVar.add d.state0 y) (FieldVar.add d.state1 x),
        by simp [DuplexState.squeeze, hab, hsq, hq, vecPop_two, vecPop_one, vecPop_nil,
          DuplexState.permute, sysPoseidon], rfl, rfl, rfl⟩
    · exfalso
      rw [hq] at hlen
      simp [RATE_SIZE] at hlen

/-- Any operation sequence from an invariant-satisfying sponge runs without
panicking, preserves the invariant and never touches the capacity element. -/
theorem runOps_spec (ops : List SpongeOp) :
    ∀ (sys : RunState) (d : DuplexState), DuplexInv d →
    ∃ sys1 d1, runOps sys d ops = some (sys1, d1) ∧ DuplexInv d1 ∧ d1.state2 = d.state2 := by
  induction ops with
  | nil => exact fun sys d h => ⟨sys, d, rfl, h, rfl⟩
  | cons op rest ih =>
    intro sys d hInv
    cases op with
    | absorbOp inputs =>
      obtain ⟨sys1, d1, habs, hab, hsq, hst2, hlen⟩ := absorb_spec d sys inputs hInv
      have hInv1 : DuplexInv d1 := by
        refine ⟨hlen, ?_, ?_⟩
        · intro hfalse
          rw [hab] at hfalse
          exact Bool.noConfusion hfalse
        · intro _
          exact hsq
      obtain ⟨sys2, d2, hrun, hInv2, hst2b⟩ := ih sys1 d1 hInv1
      exact ⟨sys2, d2, by simp [runOps, runOp, habs, hrun], hInv2, by rw [hst2b, hst2]⟩
    | squeezeOp =>
      obtain ⟨sys1, d1, out, hsqz, hab, hqe, hst2⟩ := squeeze_spec d sys hInv
      have hInv1 : DuplexInv d1 := by
        refine ⟨by simp [hqe, RATE_SIZE], fun _ => hqe, ?_⟩
        intro htrue
        rw [hab] at htrue
        exact Bool.noConfusion htrue
      obtain ⟨sys2, d2, hrun, hInv2, hst2b⟩ := ih sys1 d1 hInv1
      exact ⟨sys2, d2, by simp [runOps, runOp, hsqz, hrun], hInv2, by rw [hst2b, hst2]⟩

theorem duplexInv_new : DuplexInv DuplexState.new :=
  ⟨by simp [DuplexState.new, RATE_SIZE], fun _ => rfl, fun _ => rfl⟩

/-- C1 (amended): when `absorb` is called with the queue already holding
`RATE_SIZE = 2` pending elements, the drain step pops the two queued elements
(the first-queued, i.e. oldest, first), adds them into `state[0]` and
`state[1]` respectively, and invokes the Poseidon hash on the updated
`(state[0], state[1])` — but the hash's outputs are not written back into the
state: after the drain, `state[0]` and `state[1]` hold the additive sums, and
only then is the new input pushed to the front of the queue. -/
theorem C1_absorb_drain_amended (d : DuplexState) (sys : RunState) (input a b : FieldVar)
    (hq : d.rev_queue = [b, a]) :
    d.absorbStep sys input =
      some ({ permCount := sys.permCount + 1
              calls := sys.calls ++ [(FieldVar.add d.state0 a, FieldVar.add d.state1 b)] },
            { d with state0 := FieldVar.add d.state0 a
                     state1 := FieldVar.add d.state1 b
                     rev_queue := [input] }) := by
  simp [DuplexState.absorbStep, hq, RATE_SIZE, vecPop_two, vecPop_one,
    DuplexState.permute, sysPoseidon]

/-- C1 counterexample: absorbing a third input into a fresh sponge triggers
the overflow drain, which permutes on the sums but leaves `state[0]`,
`state[1]` equal to those sums — not to the permutation's output pair
`(permL, permR)` as the claim asserts. -/
theorem C1_counterexample :
    DuplexState.new.absorb sysInit [FieldVar.input 0, FieldVar.input 1, FieldVar.input 2] =
      some ({ permCount := 1
              calls := [(FieldVar.add FieldVar.zero (FieldVar.input 0),
                         FieldVar.add FieldVar.zero (FieldVar.input 1))] },
            { rev_queue := [FieldVar.input 2]
              absorbing := true
              squeezed := none
              state0 := FieldVar.add FieldVar.zero (FieldVar.input 0)
              state1 := FieldVar.add FieldVar.zero (FieldVar.input 1)
              state2 := FieldVar.zero }) ∧
    FieldVar.add FieldVar.zero (FieldVar.input 0) ≠
      FieldVar.permL (FieldVar.add FieldVar.zero (FieldVar.input 0))
        (FieldVar.add FieldVar.zero (FieldVar.input 1)) ∧
    FieldVar.add FieldVar.zero (FieldVar.input 1) ≠
      FieldVar.permR (FieldVar.add FieldVar.zero (FieldVar.input 0))
        (FieldVar.add FieldVar.zero (FieldVar.input 1)) :=
  ⟨rfl, by decide, by decide⟩

/-- Witness for the amended C1 at a concrete full queue. -/
theorem C1_absorb_drain_witness :
    DuplexState.absorbStep
        { DuplexState.new with rev_queue := [FieldVar.input 1, FieldVar.input 0] }
        sysInit (FieldVar.input 2) =
      some ({ permCount := 1
              calls := [(FieldVar.add FieldVar.zero (FieldVar.input 0),
                         FieldVar.add FieldVar.zero (FieldVar.input 1))] },
            { DuplexState.new with
                state0 := FieldVar.add FieldVar.zero (FieldVar.input 0)
                state1 := FieldVar.add FieldVar.zero (FieldVar.input 1)
                rev_queue := [FieldVar.input 2] }) :=
  C1_absorb_drain_amended _ sysInit (FieldVar.input 2) (FieldVar.input 0) (FieldVar.input 1) rfl

/-- C6: absorption is lazy — `absorbStep` permutes exactly when a third
element would overflow the rate, never eagerly per call; consequently a fresh
sponge that absorbs `k ≤ 2` elements and squeezes once performs exactly one
permutation, while absorbing exactly 3 elements and squeezing performs exactly
two (one on the overflow during absorb, one during squeeze). -/
theorem C6_lazy_permutation :
    (∀ (d : DuplexState) (sys : RunState) (input : FieldVar),
      (d.absorbStep sys input).map (fun p => p.1.permCount) =
        some (if d.rev_queue.length = RATE_SIZE then sys.permCount + 1 else sys.permCount)) ∧
    (∀ inputs : List FieldVar, inputs.length ≤ RATE_SIZE →
      ((DuplexState.new.absorb sysInit inputs).bind
          (fun p => p.2.squeeze p.1)).map (fun r => r.1.permCount) = some 1) ∧
    (∀ a b c : FieldVar,
      ((DuplexState.new.absorb sysInit [a, b, c]).bind
          (fun p => p.2.squeeze p.1)).map (fun r => r.1.permCount) = some 2) := by
  refine ⟨absorbStep_permCount, ?_, ?_⟩
  · intro inputs hlen
    match inputs with
    | [] => rfl
    | [a] => rfl
    | [a, b] => rfl
    | a :: b :: c :: rest => simp [RATE_SIZE] at hlen
  · intro a b c
    rfl

/-- Witness for C6 at a concrete single absorbed element. -/
theorem C6_lazy_permutation_witness :
    ((DuplexState.new.absorb sysInit [FieldVar.input 0]).bind
        (fun p => p.2.squeeze p.1)).map (fun r => r.1.permCount) = some 1 :=
  C6_lazy_permutation.2.1 [FieldVar.input 0] (by decide)

/-- C7: in squeezing mode, a squeeze with a cached `pending_output` returns it
and clears it with no permutation; a squeeze with no cache performs exactly
one permutation, caches its second output, and returns its first; hence two
consecutive squeezes return the permutation's two outputs in order with one
permutation total, and a third squeeze performs exactly one more. -/
theorem C7_squeeze_cached (d : DuplexState) (sys : RunState) (hmode : d.absorbing = false) :
    (∀ v, d.squeezed = some v →
      d.squeeze sys = some (sys, { d with squeezed := none }, v)) ∧
    (d.squeezed = none →
      d.squeeze sys =
        some ({ permCount := sys.permCount + 1
                calls := sys.calls ++ [(d.state0, d.state1)] },
              { d with squeezed := some (FieldVar.permR d.state0 d.state1) },
              FieldVar.permL d.state0 d.state1)) ∧
    (d.squeezed = none →
      ((d.squeeze sys).bind (fun r => (r.2.1.squeeze r.1).map
          (fun r2 => (r2.1.permCount, r.2.2, r2.2.2)))) =
        some (sys.permCount + 1, FieldVar.permL d.state0 d.state1,
              FieldVar.permR d.state0 d.state1)) ∧
    (d.squeezed = none →
      (((d.squeeze sys).bind (fun r => r.2.1.squeeze r.1)).bind
          (fun r2 => r2.2.1.squeeze r2.1)).map (fun r3 => r3.1.permCount) =
        some (sys.permCount + 2)) := by
  refine ⟨?_, ?_, ?_, ?_⟩
  · intro v hv
    simp [DuplexState.squeeze, hmode, hv]
  · intro hv
    simp [DuplexState.squeeze, hmode, hv, DuplexState.permute, sysPoseidon]
  · intro hv
    simp [DuplexState.squeeze, hmode, hv, DuplexState.permute, sysPoseidon]
  · intro hv
    simp [DuplexState.squeeze, hmode, hv, DuplexState.permute, sysPoseidon]

/-- Witness for C7: the no-cache squeeze on a concrete squeezing-mode state. -/
theorem C7_squeeze_cached_witness :
    DuplexState.squeeze { DuplexState.new with absorbing := false } sysInit =
      some ({ permCount := 1, calls := [(FieldVar.zero, FieldVar.zero)] },
            { DuplexState.new with
                absorbing := false
                squeezed := some (FieldVar.permR FieldVar.zero FieldVar.zero) },
            FieldVar.permL FieldVar.zero FieldVar.zero) :=
  (C7_squeeze_cached { DuplexState.new with absorbing := false } sysInit rfl).2.1 rfl

/-- C8 (amended): when `squeeze` is called on a sponge in absorbing mode with
two queued elements, the queue is drained by popping from the end of the
reverse-ordered queue twice, so the first-queued (oldest) element is added
into `state[0]` and the more recently queued one into `state[1]`, before the
mode is set to squeezing. -/
theorem C8_squeeze_drain_amended (d : DuplexState) (sys : RunState) (a b : FieldVar)
    (hmode : d.absorbing = true) (hsq : d.squeezed = none) (hq : d.rev_queue = [b, a]) :
    d.squeeze sys =
      some ({ permCount := sys.permCount + 1
              calls := sys.calls ++ [(FieldVar.add d.state0 a, FieldVar.add d.state1 b)] },
            { d with rev_queue := []
                     absorbing := false
                     state0 := FieldVar.add d.state0 a
                     state1 := FieldVar.add d.state1 b
                     squeezed := some (FieldVar.permR (FieldVar.add d.state0 a)
                       (FieldVar.add d.state1 b)) },
            FieldVar.permL (FieldVar.add d.state0 a) (FieldVar.add d.state1 b)) := by
  simp [DuplexState.squeeze, hmode, hsq, hq, vecPop_two, vecPop_one,
    DuplexState.permute, sysPoseidon]

/-- C8 counterexample: queue `input 0` then `input 1` into a fresh sponge and
squeeze.  The element drained into `state[0]` is the first-queued `input 0`,
not the last-queued `input 1` that the claim names. -/
theorem C8_counterexample :
    ((DuplexState.new.absorb sysInit [FieldVar.input 0, FieldVar.input 1]).bind
        (fun p => p.2.squeeze p.1)).map (fun r => r.2.1.state0) =
      some (FieldVar.add FieldVar.zero (FieldVar.input 0)) ∧
    ((DuplexState.new.absorb sysInit [FieldVar.input 0, FieldVar.input 1]).bind
        (fun p => p.2.squeeze p.1)).map (fun r => r.2.1.state0) ≠
      some (FieldVar.add FieldVar.zero (FieldVar.input 1)) :=
  ⟨rfl, by decide⟩

/-- Witness for the amended C8 at a concrete two-element queue. -/
theorem C8_squeeze_drain_witness :
    DuplexState.squeeze
        { DuplexState.new with rev_queue := [FieldVar.input 1, FieldVar.input 0] } sysInit =
      some ({ permCount := 1
              calls := [(FieldVar.add FieldVar.zero (FieldVar.input 0),
                         FieldVar.add FieldVar.zero (FieldVar.input 1))] },
            { DuplexState.new with
                rev_queue := []
                absorbing := false
                state0 := FieldVar.add FieldVar.zero (FieldVar.input 0)
                state1 := FieldVar.add FieldVar.zero (FieldVar.input 1)
                squeezed := some (FieldVar.permR
                  (FieldVar.add FieldVar.zero (FieldVar.input 0))
                  (FieldVar.add FieldVar.zero (FieldVar.input 1))) },
            FieldVar.permL (FieldVar.add FieldVar.zero (FieldVar.input 0))
              (FieldVar.add FieldVar.zero (FieldVar.input 1))) :=
  C8_squeeze_drain_amended _ sysInit (FieldVar.input 0) (FieldVar.input 1) rfl rfl rfl

/-- C9: every absorb/squeeze sequence from a fresh sponge runs without any
mode-switch assertion failing (the run never panics), and afterwards the
pending output is non-empty only in squeezing mode and the queue is non-empty
only in absorbing mode. -/
theorem C9_mode_invariants (ops : List SpongeOp) :
    ∃ sys1 d1, runOps sysInit DuplexState.new ops = some (sys1, d1) ∧
      (d1.absorbing = false → d1.rev_queue = []) ∧
      (d1.absorbing = true → d1.squeezed = none) := by
  obtain ⟨sys1, d1, hrun, hInv, _⟩ := runOps_spec ops sysInit DuplexState.new duplexInv_new
  exact ⟨sys1, d1, hrun, hInv.2.1, hInv.2.2⟩

/-- C10: the capacity element `state[2]` is never modified by any sequence of
absorb/squeeze operations on a fresh sponge: it remains the zero circuit
variable it was initialised to. -/
theorem C10_capacity_frame (ops : List SpongeOp) (sys1 : RunState) (d1 : DuplexState)
    (h : runOps sysInit DuplexState.new ops = some (sys1, d1)) :
    d1.state2 = FieldVar.zero := by
  obtain ⟨sys2, d2, hrun, _, hst2⟩ := runOps_spec ops sysInit DuplexState.new duplexInv_new
  rw [h] at hrun
  simp only [Option.some_inj, Prod.mk.injEq] at hrun
  rw [hrun.2]
  exact hst2

/-- The trace of a concrete three-absorb-then-squeeze interaction. -/
def opsExample : List SpongeOp :=
  [SpongeOp.absorbOp [FieldVar.input 0, FieldVar.input 1, FieldVar.input 2],
   SpongeOp.squeezeOp]

def sysExample : RunState :=
  { permCount := 2
    calls := [(FieldVar.add FieldVar.zero (FieldVar.input 0),
               FieldVar.add FieldVar.zero (FieldVar.input 1)),
              (FieldVar.add (FieldVar.add FieldVar.zero (FieldVar.input 0)) (FieldVar.input 2),
               FieldVar.add FieldVar.zero (FieldVar.input 1))] }

def dExample : DuplexState :=
  { rev_queue := []
    absorbing := false
    squeezed := some (FieldVar.permR
      (FieldVar.add (FieldVar.add FieldVar.zero (FieldVar.input 0)) (FieldVar.input 2))
      (FieldVar.add FieldVar.zero (FieldVar.input 1)))
    state0 := FieldVar.add (FieldVar.add FieldVar.zero (FieldVar.input 0)) (FieldVar.input 2)
    state1 := FieldVar.add FieldVar.zero (FieldVar.input 1)
    state2 := FieldVar.zero }

/-- Witness for C10 on the concrete interaction `opsExample`. -/
theorem C10_capacity_frame_witness :
    runOps sysInit DuplexState.new opsExample = some (sysExample, dExample) ∧
    dExample.state2 = FieldVar.zero :=
  ⟨rfl, C10_capacity_frame opsExample sysExample dExample rfl⟩
